import Mathlib

/-!
Verification of the PRU motion-queue driver (`src/pru-motion-queue.c`)
against its natural-language specification.

The driver communicates with a real-time coprocessor (PRU) through a
shared-memory ring buffer of `QUEUE_LEN` `MotionSegment` slots.  The host
fills slots in cursor order using a write-then-flip discipline; the PRU
consumes them in the same order, flipping each slot back to `STATE_EMPTY`.

`motion-queue.h` and `motor-interface-constants.h` are not part of the
source tree given here, so the record layout, the state-tag encoding, the
queue length and the GPIO bit positions are modelled from the spec and
kept as parameters where the spec leaves them open.
-/

/-- `unsigned int` arithmetic in the driver is 32-bit; wraparound is mod `U32`. -/
def U32 : Nat := 4294967296

/-- Modelled from the spec: `motion-queue.h` is missing from the sources;
per §6, the `state` tag encodes `Empty` as 0. -/
def STATE_EMPTY : Nat := 0

/-- Modelled from the spec: `motion-queue.h` is missing from the sources;
per §6, `Exit` is one fixed nonzero tag value. -/
def STATE_EXIT : Nat := 2

/-- Modelled from the spec: the `MotionSegment` record of `motion-queue.h`
(missing from the sources), per §3 and the §6 layout table.  `state` is a
one-byte tag; the remaining fields are the opaque motion payload; the
`fractions` array has one entry per motor. -/
structure MotionSegment where
  state : Nat
  direction_bits : Nat
  loops_accel : Nat
  loops_travel : Nat
  loops_decel : Nat
  hires_accel_cycles : Nat
  travel_delay_cycles : Nat
  fractions : List Nat
deriving DecidableEq, Repr

/-- The host-visible shared state: the ring buffer (`pru_data_->ring_buffer`,
indexed by slot number) and the host-local cursor `queue_pos_`.
The queue length `QUEUE_LEN` is a compile-time constant kept as an explicit
parameter `Q` of every operation; only indices below `Q` are meaningful. -/
structure PRUState where
  ring : Nat → MotionSegment
  queue_pos : Nat

/-- The all-zero segment left by `bzero` in `map_pru_communication`;
`M` is the motor count (length of `fractions`). -/
def zero_segment (M : Nat) : MotionSegment :=
  { state := 0, direction_bits := 0, loops_accel := 0, loops_travel := 0,
    loops_decel := 0, hires_accel_cycles := 0, travel_delay_cycles := 0,
    fractions := List.replicate M 0 }

/-- `map_pru_communication`: zero-fills the shared block, marks every slot
`STATE_EMPTY` (already 0 after `bzero`) and resets `queue_pos_` to 0. -/
def map_pru_communication (Q M : Nat) : PRUState :=
  let _ := Q
  { ring := fun _ => { zero_segment M with state := STATE_EMPTY },
    queue_pos := 0 }

/-- The condition under which `next_queue_element` enters its blocking wait
loop: after `queue_pos_ %= QUEUE_LEN`, the slot at the cursor is not
`STATE_EMPTY`. -/
def enqueue_blocks (Q : Nat) (s : PRUState) : Bool :=
  (s.ring (s.queue_pos % Q)).state != STATE_EMPTY

/-- `next_queue_element`, non-blocking path: reduces `queue_pos_` mod
`QUEUE_LEN`, returns the slot index at the cursor and post-increments the
cursor (a 32-bit `unsigned int`). -/
def next_queue_element (Q : Nat) (s : PRUState) : Nat × PRUState :=
  let p := s.queue_pos % Q
  (p, { s with queue_pos := (p + 1) % U32 })

/-- The assertion in `pru_enqueue_segment`:
`assert(state_to_send != STATE_EMPTY)` fails (aborting the process)
exactly when the caller's intended state is `STATE_EMPTY`. -/
def pru_enqueue_aborts (element : MotionSegment) : Bool :=
  let state_to_send := element.state
  !(state_to_send != STATE_EMPTY)

/-- `pru_enqueue_segment` past its assertion: records `state_to_send`,
forces the caller's `element->state` to `STATE_EMPTY`, acquires the slot
via `next_queue_element`, copies the whole record into the slot, then
flips the slot's `state` to `state_to_send`.  Returns the caller's
element as it is left after the call, and the new shared state. -/
def pru_enqueue_segment (Q : Nat) (s : PRUState) (element : MotionSegment) :
    MotionSegment × PRUState :=
  let state_to_send := element.state
  let element2 := { element with state := STATE_EMPTY }
  let r := next_queue_element Q s
  let idx := r.1
  let s1 := r.2
  let s2 := { s1 with ring := fun j => if j = idx then element2 else s1.ring j }
  let s3 := { s2 with
              ring := fun j => if j = idx then
                                 { s2.ring idx with state := state_to_send }
                               else s2.ring j }
  (element2, s3)

/-- The slot index `pru_wait_queue_empty` watches:
`(queue_pos_ - 1) % QUEUE_LEN` where `queue_pos_ - 1` wraps as a 32-bit
unsigned subtraction. -/
def wait_drain_last_pos (Q : Nat) (s : PRUState) : Nat :=
  ((s.queue_pos + (U32 - 1)) % U32) % Q

/-- The exit condition of `pru_wait_queue_empty`'s wait loop: the most
recently filled slot reads `STATE_EMPTY`. -/
def wait_drain_returns (Q : Nat) (s : PRUState) : Bool :=
  (s.ring (wait_drain_last_pos Q s)).state == STATE_EMPTY

/-- Modelled from the spec: the PRU firmware (not in the sources) consumes a
slot by flipping its `state` back to `STATE_EMPTY`; this is the simulated
consumer marking slot `i` empty (§8). -/
def consumer_mark (s : PRUState) (i : Nat) : PRUState :=
  { s with ring := fun j => if j = i then { s.ring i with state := STATE_EMPTY }
                            else s.ring j }

/-- `pru_motor_enable_nowait`: the 32-bit value written to
`gpio_1[GPIO_DATAOUT/4]`.  The enable pin uses inverse logic (`-EN`):
`on ? 0 : (1 << MOTOR_ENABLE_GPIO1_BIT)`.  The bit position comes from
`motor-interface-constants.h` (missing from the sources) and is kept as
the parameter `motor_enable_gpio1_bit`. -/
def pru_motor_enable_nowait (motor_enable_gpio1_bit : Nat) (on_ : Bool) : Nat :=
  if on_ then 0 else (1 <<< motor_enable_gpio1_bit) % U32

/-- The zero-initialized `end_element` of `pru_shutdown` with its state set
to `STATE_EXIT` (`struct MotionSegment end_element = {0};
end_element.state = STATE_EXIT;`). -/
def exit_segment (M : Nat) : MotionSegment :=
  { zero_segment M with state := STATE_EXIT }

/-- The externally visible actions `pru_shutdown` can perform, in the order
it performs them. -/
inductive ShutdownAction where
  | enqueue (e : MotionSegment)
  | wait_queue_empty
  | pru_disable
  | pru_release_handle
  | motor_enable (on_ : Bool)
  | unmap_gpio
deriving DecidableEq, Repr

/-- Whether a shutdown action is an enqueue. -/
def isEnqueueAction : ShutdownAction → Bool
  | .enqueue _ => true
  | _ => false

/-- `pru_shutdown` as its sequence of actions: if `flush_queue`, enqueue the
`STATE_EXIT` sentinel and wait for the queue to drain; then unconditionally
`prussdrv_pru_disable`, release the prussdrv handle, force the motors off,
and unmap the GPIO registers. -/
def pru_shutdown_trace (M : Nat) (flush_queue : Bool) : List ShutdownAction :=
  (if flush_queue then
     [ShutdownAction.enqueue (exit_segment M), ShutdownAction.wait_queue_empty]
   else []) ++
  [ShutdownAction.pru_disable, ShutdownAction.pru_release_handle,
   ShutdownAction.motor_enable false, ShutdownAction.unmap_gpio]

/-- `v` is a byte-level mix of segments `a` and `b`: every field (and every
entry of `fractions`) holds either its `a` value or its `b` value.  This is
what an observer can see mid-way through the struct copy
`*queue_element = *element`, whatever order the bytes are copied in. -/
def seg_mix (a b v : MotionSegment) : Prop :=
  (v.state = a.state ∨ v.state = b.state) ∧
  (v.direction_bits = a.direction_bits ∨ v.direction_bits = b.direction_bits) ∧
  (v.loops_accel = a.loops_accel ∨ v.loops_accel = b.loops_accel) ∧
  (v.loops_travel = a.loops_travel ∨ v.loops_travel = b.loops_travel) ∧
  (v.loops_decel = a.loops_decel ∨ v.loops_decel = b.loops_decel) ∧
  (v.hires_accel_cycles = a.hires_accel_cycles ∨
     v.hires_accel_cycles = b.hires_accel_cycles) ∧
  (v.travel_delay_cycles = a.travel_delay_cycles ∨
     v.travel_delay_cycles = b.travel_delay_cycles) ∧
  (v.fractions.length = a.fractions.length ∧
   v.fractions.length = b.fractions.length ∧
   ∀ i, v.fractions.getD i 0 = a.fractions.getD i 0 ∨
        v.fractions.getD i 0 = b.fractions.getD i 0)

/-- The slot values an observer can see at any instant while
`pru_enqueue_segment` writes a slot that held `old`: either a mix of `old`
and the incoming record (whose `state` was already forced to `STATE_EMPTY`
before the copy), or the fully copied record after the single final write
that flips `state` to the caller's intended value. -/
def enqueue_observable (old element v : MotionSegment) : Prop :=
  seg_mix old { element with state := STATE_EMPTY } v ∨
  v = { { element with state := STATE_EMPTY } with state := element.state }

/-- Run a sequence of enqueues (the resulting shared state). -/
def enqueue_run (Q : Nat) (s : PRUState) : List MotionSegment → PRUState
  | [] => s
  | e :: rest => enqueue_run Q (pru_enqueue_segment Q s e).2 rest

/-- `true` when none of the successive enqueue calls would enter the
blocking wait loop of `next_queue_element`. -/
def no_call_blocks (Q : Nat) (s : PRUState) : List MotionSegment → Bool
  | [] => true
  | e :: rest =>
      !(enqueue_blocks Q s) &&
      no_call_blocks Q (pru_enqueue_segment Q s e).2 rest

/-- A concrete sample segment for scenario tests. -/
def test_seg (k : Nat) : MotionSegment :=
  { state := 1, direction_bits := k, loops_accel := 10, loops_travel := 20,
    loops_decel := 30, hires_accel_cycles := 40, travel_delay_cycles := 50,
    fractions := [k, 0] }

/-- The shared state after enqueueing four sample segments into a freshly
opened channel with `QUEUE_LEN = 4`. -/
def test_fill_4 : PRUState :=
  enqueue_run 4 (map_pru_communication 4 2)
    [test_seg 0, test_seg 1, test_seg 2, test_seg 3]

/-- Modelled from the spec: the reachable configurations of one
producer/consumer session over the channel.  `p` counts segments enqueued
and `c` segments consumed.  The producer runs `pru_enqueue_segment` only
once the wait loop of `next_queue_element` would not block, and only with
a valid (non-`Empty`) intended state; the consumer — the PRU firmware,
which is not in the sources — processes slots in enqueue order (§4.3,
§5), flipping each back to `STATE_EMPTY` after execution. -/
inductive Reach (Q : Nat) : PRUState → Nat → Nat → Prop where
  | init (M : Nat) : Reach Q (map_pru_communication Q M) 0 0
  | enqueue {s : PRUState} {p c : Nat} (e : MotionSegment) :
      Reach Q s p c → e.state ≠ STATE_EMPTY → enqueue_blocks Q s = false →
      Reach Q (pru_enqueue_segment Q s e).2 (p + 1) c
  | consume {s : PRUState} {p c : Nat} :
      Reach Q s p c → (s.ring (c % Q)).state ≠ STATE_EMPTY →
      Reach Q (consumer_mark s (c % Q)) p (c + 1)

/-- The inductive invariant of a session: the cursor tracks the number of
enqueues modulo `Q` and stays in `[0, Q]`, the consumer never overtakes the
producer nor falls more than `Q` behind, and the non-`Empty` slots are
exactly those holding the segments enqueued but not yet consumed. -/
def QueueInv (Q : Nat) (s : PRUState) (p c : Nat) : Prop :=
  s.queue_pos % Q = p % Q ∧ s.queue_pos ≤ Q ∧ (s.queue_pos = 0 ↔ p = 0) ∧
  c ≤ p ∧ p ≤ c + Q ∧
  ∀ j, j < Q →
    ((s.ring j).state ≠ STATE_EMPTY ↔ ∃ t, c ≤ t ∧ t < p ∧ t % Q = j)

/- ### Basic unfolding lemmas for the enqueue step -/

theorem enqueue_fst (Q : Nat) (s : PRUState) (e : MotionSegment) :
    (pru_enqueue_segment Q s e).1 = { e with state := STATE_EMPTY } := rfl

theorem enqueue_queue_pos (Q : Nat) (s : PRUState) (e : MotionSegment) :
    (pru_enqueue_segment Q s e).2.queue_pos = (s.queue_pos % Q + 1) % U32 := rfl

theorem enqueue_ring_at (Q : Nat) (s : PRUState) (e : MotionSegment) :
    (pru_enqueue_segment Q s e).2.ring (s.queue_pos % Q) = e := by
  simp [pru_enqueue_segment, next_queue_element]

theorem enqueue_ring_other (Q : Nat) (s : PRUState) (e : MotionSegment)
    (j : Nat) (h : j ≠ s.queue_pos % Q) :
    (pru_enqueue_segment Q s e).2.ring j = s.ring j := by
  simp [pru_enqueue_segment, next_queue_element, h]

theorem consumer_mark_at (s : PRUState) (i : Nat) :
    (consumer_mark s i).ring i = { s.ring i with state := STATE_EMPTY } := by
  simp [consumer_mark]

theorem consumer_mark_other (s : PRUState) (i j : Nat) (h : j ≠ i) :
    (consumer_mark s i).ring j = s.ring j := by
  simp [consumer_mark, h]

/- ### Claim theorems -/

/-- C5: `pru_enqueue_segment`'s assertion aborts if and only if the caller's
segment has intended state `STATE_EMPTY`; for every non-`Empty` intended
state the assertion passes. -/
theorem c5_assert_iff_empty (e : MotionSegment) :
    pru_enqueue_aborts e = true ↔ e.state = STATE_EMPTY := by
  simp [pru_enqueue_aborts]

/-- C7: `pru_motor_enable_nowait` uses inverted logic: `on = true` drives the
enable bit of the GPIO-1 data-out register to 0 (active), `on = false`
drives it to 1 (inactive). -/
theorem c7_motor_enable_inverted (bit : Nat) (hbit : bit < 32) :
    Nat.testBit (pru_motor_enable_nowait bit true) bit = false ∧
    Nat.testBit (pru_motor_enable_nowait bit false) bit = true := by
  have hlt : (1 <<< bit) % U32 = 2 ^ bit := by
    rw [Nat.shiftLeft_eq, one_mul]
    refine Nat.mod_eq_of_lt ?_
    have h2 : (2:Nat) ^ bit < 2 ^ 32 := Nat.pow_lt_pow_right (by omega) hbit
    have h3 : (2:Nat) ^ 32 = U32 := by norm_num [U32]
    exact h3 ▸ h2
  constructor
  · simp [pru_motor_enable_nowait]
  · simp [pru_motor_enable_nowait, hlt, Nat.testBit_two_pow_self]

/-- C7 witness at the concrete bit position 14. -/
theorem c7_motor_enable_inverted_witness :
    Nat.testBit (pru_motor_enable_nowait 14 true) 14 = false ∧
    Nat.testBit (pru_motor_enable_nowait 14 false) 14 = true :=
  c7_motor_enable_inverted 14 (by decide)

/-- C8: every call to `pru_motor_enable_nowait` overwrites the whole GPIO-1
data-out register: afterwards every bit other than the motor-enable bit is
zero, clearing any previously written direction bits. -/
theorem c8_motor_enable_clobbers_register (bit : Nat) (on_ : Bool) (j : Nat)
    (hbit : bit < 32) (hj : j ≠ bit) :
    Nat.testBit (pru_motor_enable_nowait bit on_) j = false := by
  cases on_ with
  | true => simp [pru_motor_enable_nowait]
  | false =>
      have hlt : (1 <<< bit) % U32 = 2 ^ bit := by
        rw [Nat.shiftLeft_eq, one_mul]
        refine Nat.mod_eq_of_lt ?_
        have h2 : (2:Nat) ^ bit < 2 ^ 32 := Nat.pow_lt_pow_right (by omega) hbit
        have h3 : (2:Nat) ^ 32 = U32 := by norm_num [U32]
        exact h3 ▸ h2
      show Nat.testBit ((1 <<< bit) % U32) j = false
      rw [hlt]
      exact Nat.testBit_two_pow_of_ne (fun h => hj h.symm)

/-- C8 witness: with the enable bit at position 14, bit 3 is cleared. -/
theorem c8_motor_enable_clobbers_register_witness :
    Nat.testBit (pru_motor_enable_nowait 14 false) 3 = false :=
  c8_motor_enable_clobbers_register 14 false 3 (by decide) (by decide)

/-- C9: `pru_enqueue_segment` mutates the caller-owned segment: on return
its `state` field is `STATE_EMPTY` (not restored to the intended state),
while every other field is unchanged. -/
theorem c9_caller_segment_mutated (Q : Nat) (s : PRUState) (e : MotionSegment)
    (h : e.state ≠ STATE_EMPTY) :
    (pru_enqueue_segment Q s e).1.state = STATE_EMPTY ∧
    (pru_enqueue_segment Q s e).1.state ≠ e.state ∧
    (pru_enqueue_segment Q s e).1.direction_bits = e.direction_bits ∧
    (pru_enqueue_segment Q s e).1.loops_accel = e.loops_accel ∧
    (pru_enqueue_segment Q s e).1.loops_travel = e.loops_travel ∧
    (pru_enqueue_segment Q s e).1.loops_decel = e.loops_decel ∧
    (pru_enqueue_segment Q s e).1.hires_accel_cycles = e.hires_accel_cycles ∧
    (pru_enqueue_segment Q s e).1.travel_delay_cycles = e.travel_delay_cycles ∧
    (pru_enqueue_segment Q s e).1.fractions = e.fractions :=
  ⟨rfl, fun hc => h hc.symm, rfl, rfl, rfl, rfl, rfl, rfl, rfl⟩

/-- C9 witness at a concrete state and segment. -/
theorem c9_caller_segment_mutated_witness :
    (test_seg 7).state ≠ STATE_EMPTY ∧
    (pru_enqueue_segment 4 (map_pru_communication 4 2) (test_seg 7)).1.state
      = STATE_EMPTY :=
  ⟨by decide,
   (c9_caller_segment_mutated 4 (map_pru_communication 4 2) (test_seg 7)
      (by decide)).1⟩

/-- C1: write-then-flip — any value observable in the slot during
`pru_enqueue_segment` (a mid-copy mix while the slot and incoming record
both carry `state = STATE_EMPTY`, or the final record after the single
state flip) that has a non-`Empty` state is exactly the caller's fully
written segment; no torn write is ever exposed. -/
theorem c1_write_then_flip (old element v : MotionSegment)
    (hold : old.state = STATE_EMPTY)
    (hobs : enqueue_observable old element v)
    (hne : v.state ≠ STATE_EMPTY) : v = element := by
  rcases hobs with hmix | hfinal
  · rcases hmix.1 with h | h
    · exact absurd (hold ▸ h) hne
    · exact absurd h hne
  · exact hfinal

/-- C1 witness at a concrete slot value and segment. -/
theorem c1_write_then_flip_witness :
    (zero_segment 2).state = STATE_EMPTY ∧
    enqueue_observable (zero_segment 2) (test_seg 1) (test_seg 1) ∧
    (test_seg 1).state ≠ STATE_EMPTY ∧ test_seg 1 = test_seg 1 :=
  ⟨rfl, Or.inr rfl, by decide,
   c1_write_then_flip (zero_segment 2) (test_seg 1) (test_seg 1) rfl
     (Or.inr rfl) (by decide)⟩

/-- C6: `pru_shutdown` with `flush_queue = true` performs exactly one
enqueue, of the `STATE_EXIT` sentinel, then waits for the queue to drain,
and only then disables the PRU, releases the prussdrv handle, forces the
motors off and unmaps the GPIO registers; nothing is enqueued after the
sentinel. -/
theorem c6_shutdown_flush (M : Nat) :
    pru_shutdown_trace M true =
      [ShutdownAction.enqueue (exit_segment M), ShutdownAction.wait_queue_empty,
       ShutdownAction.pru_disable, ShutdownAction.pru_release_handle,
       ShutdownAction.motor_enable false, ShutdownAction.unmap_gpio] ∧
    (pru_shutdown_trace M true).countP (fun a => isEnqueueAction a) = 1 ∧
    (exit_segment M).state = STATE_EXIT ∧ STATE_EXIT ≠ STATE_EMPTY :=
  ⟨rfl, rfl, rfl, by decide⟩

/- ### Arithmetic helper lemmas -/

theorem pred_mod_of_dvd (N Q : Nat) (hQ : 0 < Q) (hdvd : Q ∣ N) (hN : 0 < N) :
    (N - 1) % Q = Q - 1 := by
  obtain ⟨m, rfl⟩ := hdvd
  rcases m with _ | k
  · simp at hN
  · have hmul : Q * (k + 1) = Q * k + Q := by ring
    have hsub : Q * (k + 1) - 1 = (Q - 1) + Q * k := by omega
    rw [hsub, Nat.add_mul_mod_self_left]
    exact Nat.mod_eq_of_lt (by omega)

theorem pred_mod_congr (Q a b : Nat) (hQ : 0 < Q) (ha : 1 ≤ a) (hb : 1 ≤ b)
    (h : a % Q = b % Q) : (a - 1) % Q = (b - 1) % Q := by
  rcases Nat.eq_zero_or_pos (a % Q) with h0 | h0
  · have hb0 : b % Q = 0 := by omega
    have r1 := pred_mod_of_dvd a Q hQ (Nat.dvd_of_mod_eq_zero h0) (by omega)
    have r2 := pred_mod_of_dvd b Q hQ (Nat.dvd_of_mod_eq_zero hb0) (by omega)
    omega
  · have e1 := Nat.div_add_mod a Q
    have e2 := Nat.div_add_mod b Q
    have h1 : (a - 1) % Q = (a % Q - 1) % Q := by
      have heq : a - 1 = (a % Q - 1) + Q * (a / Q) := by omega
      rw [heq, Nat.add_mul_mod_self_left]
    have h2 : (b - 1) % Q = (b % Q - 1) % Q := by
      have heq : b - 1 = (b % Q - 1) + Q * (b / Q) := by omega
      rw [heq, Nat.add_mul_mod_self_left]
    rw [h1, h2, h]

theorem window_residue_unique (Q c t1 t2 : Nat) (hQ : 0 < Q)
    (h1 : c ≤ t1) (h1' : t1 < c + Q) (h2 : c ≤ t2) (h2' : t2 < c + Q)
    (hmod : t1 % Q = t2 % Q) : t1 = t2 := by
  have e1 := Nat.div_add_mod t1 Q
  have e2 := Nat.div_add_mod t2 Q
  rcases Nat.lt_trichotomy (t1 / Q) (t2 / Q) with h | h | h
  · have hle : Q * (t1 / Q + 1) ≤ Q * (t2 / Q) := Nat.mul_le_mul le_rfl h
    have hmul : Q * (t1 / Q + 1) = Q * (t1 / Q) + Q := by ring
    omega
  · rw [h] at e1
    omega
  · have hle : Q * (t2 / Q + 1) ≤ Q * (t1 / Q) := Nat.mul_le_mul le_rfl h
    have hmul : Q * (t2 / Q + 1) = Q * (t2 / Q) + Q := by ring
    omega

/- ### Blocking-freeness of the first `QUEUE_LEN` enqueues -/

theorem no_call_blocks_aux (segs : List MotionSegment) :
    ∀ (Q k : Nat) (s : PRUState), Q < U32 → s.queue_pos = k →
    k + segs.length ≤ Q →
    (∀ j, k ≤ j → (s.ring j).state = STATE_EMPTY) →
    no_call_blocks Q s segs = true := by
  induction segs with
  | nil => intro Q k s _ _ _ _; rfl
  | cons e rest ih =>
      intro Q k s hU hpos hlen hring
      have hkQ : k < Q := by
        simp only [List.length_cons] at hlen; omega
      have hk : s.queue_pos % Q = k := by
        rw [hpos]; exact Nat.mod_eq_of_lt hkQ
      have hblk : enqueue_blocks Q s = false := by
        unfold enqueue_blocks
        rw [hk, hring k le_rfl]
        simp
      show (!(enqueue_blocks Q s) && _) = true
      rw [hblk]
      simp only [Bool.not_false, Bool.true_and]
      apply ih Q (k + 1)
      · exact hU
      · rw [enqueue_queue_pos, hk]
        exact Nat.mod_eq_of_lt (by omega)
      · simp only [List.length_cons] at hlen; omega
      · intro j hj
        rw [enqueue_ring_other Q s e j (by rw [hk]; omega)]
        exact hring j (by omega)

/-- C3: from a freshly opened channel, any sequence of at most `QUEUE_LEN`
enqueue calls with no consumer activity never enters the blocking wait
loop: each call finds its slot already `STATE_EMPTY`. -/
theorem c3_first_enqueues_never_block (Q M : Nat)
    (segs : List MotionSegment) (hU : Q < U32) (hlen : segs.length ≤ Q)
    (hval : ∀ e ∈ segs, e.state ≠ STATE_EMPTY) :
    no_call_blocks Q (map_pru_communication Q M) segs = true :=
  no_call_blocks_aux segs Q 0 (map_pru_communication Q M) hU rfl
    (by omega) (fun j _ => rfl)

/-- C3 witness: four enqueues into a fresh `QUEUE_LEN = 4` channel. -/
theorem c3_first_enqueues_never_block_witness :
    no_call_blocks 4 (map_pru_communication 4 2)
      [test_seg 0, test_seg 1, test_seg 2, test_seg 3] = true :=
  c3_first_enqueues_never_block 4 2
    [test_seg 0, test_seg 1, test_seg 2, test_seg 3]
    (by decide) (by decide) (by decide)

/-- C2: every completed enqueue fills the slot at index
`queue_pos_ mod QUEUE_LEN` and advances the cursor exactly once modulo
`QUEUE_LEN`; and for `QUEUE_LEN = 4`, four enqueues into a fresh channel
do not block, a fifth blocks until the consumer marks slot 0 `Empty`, and
then completes occupying slot 0 with the cursor left at 1. -/
theorem c2_enqueue_cursor (Q : Nat) (s : PRUState) (e : MotionSegment)
    (hQ : 0 < Q) (hU : Q < U32) :
    ((pru_enqueue_segment Q s e).2.ring (s.queue_pos % Q) = e ∧
     (pru_enqueue_segment Q s e).2.queue_pos % Q = (s.queue_pos + 1) % Q) ∧
    (no_call_blocks 4 (map_pru_communication 4 2)
        [test_seg 0, test_seg 1, test_seg 2, test_seg 3] = true ∧
     enqueue_blocks 4 test_fill_4 = true ∧
     enqueue_blocks 4 (consumer_mark test_fill_4 0) = false ∧
     (pru_enqueue_segment 4 (consumer_mark test_fill_4 0)
        (test_seg 4)).2.ring 0 = test_seg 4 ∧
     (pru_enqueue_segment 4 (consumer_mark test_fill_4 0)
        (test_seg 4)).2.queue_pos = 1) := by
  refine ⟨⟨enqueue_ring_at Q s e, ?_⟩,
          by decide, by decide, by decide, by decide, by decide⟩
  rw [enqueue_queue_pos]
  have hlt : s.queue_pos % Q + 1 < U32 := by
    have := Nat.mod_lt s.queue_pos hQ
    omega
  rw [Nat.mod_eq_of_lt hlt, Nat.mod_add_mod]

/-- C2 witness: the general slot/cursor law applied at a fresh channel of
length 4 and a concrete segment. -/
theorem c2_enqueue_cursor_witness :
    (pru_enqueue_segment 4 (map_pru_communication 4 2)
       (test_seg 0)).2.ring ((map_pru_communication 4 2).queue_pos % 4)
      = test_seg 0 ∧
    (pru_enqueue_segment 4 (map_pru_communication 4 2)
       (test_seg 0)).2.queue_pos % 4
      = ((map_pru_communication 4 2).queue_pos + 1) % 4 :=
  (c2_enqueue_cursor 4 (map_pru_communication 4 2) (test_seg 0)
    (by decide) (by decide)).1

/-- C10: on a freshly opened channel (cursor 0), the unsigned computation
`(queue_pos_ - 1) % QUEUE_LEN` wraps modulo `2^32` to slot
`QUEUE_LEN - 1` whenever `QUEUE_LEN` divides `2^32`, and that slot is
`Empty` after initialization, so `pru_wait_queue_empty` does not block. -/
theorem c10_wait_drain_fresh (Q M : Nat) (hQ : 0 < Q) (hdvd : Q ∣ U32) :
    wait_drain_last_pos Q (map_pru_communication Q M) = Q - 1 ∧
    wait_drain_returns Q (map_pru_communication Q M) = true := by
  constructor
  · show ((0 + (U32 - 1)) % U32) % Q = Q - 1
    have hU32 : U32 = 4294967296 := rfl
    have h1 : (0 + (U32 - 1)) % U32 = U32 - 1 := by
      rw [Nat.zero_add]; exact Nat.mod_eq_of_lt (by omega)
    rw [h1]
    exact pred_mod_of_dvd U32 Q hQ hdvd (by omega)
  · rfl

/-- C10 witness at `QUEUE_LEN = 4` (a divisor of `2^32`). -/
theorem c10_wait_drain_fresh_witness :
    wait_drain_last_pos 4 (map_pru_communication 4 0) = 3 ∧
    wait_drain_returns 4 (map_pru_communication 4 0) = true :=
  c10_wait_drain_fresh 4 0 (by decide) (by decide)

/- ### The session invariant and wait_drain -/

theorem reach_inv (Q : Nat) (hQ : 0 < Q) (hU : Q < U32) {s : PRUState}
    {p c : Nat} (h : Reach Q s p c) : QueueInv Q s p c := by
  induction h with
  | init M =>
      refine ⟨rfl, Nat.zero_le Q, ⟨fun _ => rfl, fun _ => rfl⟩, le_rfl,
              by omega, ?_⟩
      intro j hj
      constructor
      · intro hne; exact absurd rfl hne
      · rintro ⟨t, ht1, ht2, _⟩; omega
  | enqueue e hr hstate hnb ih =>
      obtain ⟨hmod, hle, hzero, hcp, hpc, hslots⟩ := ih
      rename_i s p c
      have hpq : p % Q < Q := Nat.mod_lt p hQ
      have hemp : (s.ring (p % Q)).state = STATE_EMPTY := by
        have hb := hnb
        unfold enqueue_blocks at hb
        rw [hmod] at hb
        simpa using hb
      have hnoex : ¬ ∃ t, c ≤ t ∧ t < p ∧ t % Q = p % Q := by
        intro hex
        exact (hslots (p % Q) hpq).mpr hex hemp
      have hplt : p < c + Q := by
        rcases Nat.lt_or_ge p (c + Q) with hlt | hge
        · exact hlt
        · exfalso
          have hpeq : p = c + Q := by omega
          exact hnoex ⟨c, le_rfl, by omega, by rw [hpeq, Nat.add_mod_right]⟩
      have hsq : s.queue_pos % Q < Q := Nat.mod_lt _ hQ
      have hpos2 : (pru_enqueue_segment Q s e).2.queue_pos
          = s.queue_pos % Q + 1 := by
        rw [enqueue_queue_pos]
        exact Nat.mod_eq_of_lt (by omega)
      refine ⟨?_, ?_, ?_, by omega, by omega, ?_⟩
      · rw [hpos2, hmod, Nat.mod_add_mod]
      · rw [hpos2]; omega
      · rw [hpos2]; omega
      · intro j hj
        by_cases hjp : j = s.queue_pos % Q
        · subst hjp
          rw [enqueue_ring_at]
          constructor
          · intro _
            exact ⟨p, hcp, by omega, hmod.symm⟩
          · intro _
            exact hstate
        · rw [enqueue_ring_other Q s e j hjp, hslots j hj]
          constructor
          · rintro ⟨t, ht1, ht2, ht3⟩
            exact ⟨t, ht1, by omega, ht3⟩
          · rintro ⟨t, ht1, ht2, ht3⟩
            refine ⟨t, ht1, ?_, ht3⟩
            rcases Nat.lt_or_ge t p with hlt | hge
            · exact hlt
            · exfalso
              have htp : t = p := by omega
              subst htp
              apply hjp
              rw [← ht3, hmod]
  | consume hr hne ih =>
      obtain ⟨hmod, hle, hzero, hcp, hpc, hslots⟩ := ih
      rename_i s p c
      have hcq : c % Q < Q := Nat.mod_lt c hQ
      obtain ⟨t, ht1, ht2, ht3⟩ := (hslots (c % Q) hcq).mp hne
      have htc : t = c :=
        window_residue_unique Q c t c hQ ht1 (by omega) le_rfl (by omega) ht3
      have hclt : c < p := by omega
      refine ⟨hmod, hle, hzero, by omega, by omega, ?_⟩
      intro j hj
      by_cases hjc : j = c % Q
      · subst hjc
        rw [consumer_mark_at]
        constructor
        · intro hx; exact absurd rfl hx
        · rintro ⟨u, hu1, hu2, hu3⟩
          have huc : u = c :=
            window_residue_unique Q c u c hQ (by omega) (by omega) le_rfl
              (by omega) hu3
          exact absurd huc (by omega)
      · rw [consumer_mark_other s (c % Q) j hjc, hslots j hj]
        constructor
        · rintro ⟨u, hu1, hu2, hu3⟩
          refine ⟨u, ?_, hu2, hu3⟩
          rcases Nat.eq_or_lt_of_le hu1 with heq | hlt
          · exfalso
            apply hjc
            rw [← hu3, ← heq]
          · omega
        · rintro ⟨u, hu1, hu2, hu3⟩
          exact ⟨u, by omega, hu2, hu3⟩

/-- C4: under in-order consumption by the coprocessor, whenever
`pru_wait_queue_empty`'s wait condition is met — the most recently filled
slot `(queue_pos_ - 1) mod QUEUE_LEN` reads `STATE_EMPTY` — every slot of
the ring buffer reads `STATE_EMPTY`: `pru_wait_queue_empty` cannot return
while any previously enqueued segment remains unconsumed. -/
theorem c4_wait_drain_all_consumed (Q : Nat) {s : PRUState} {p c : Nat}
    (hQ : 0 < Q) (hU : Q < U32) (hreach : Reach Q s p c)
    (hret : wait_drain_returns Q s = true) :
    ∀ j, j < Q → (s.ring j).state = STATE_EMPTY := by
  obtain ⟨hmod, hle, hzero, hcp, hpc, hslots⟩ := reach_inv Q hQ hU hreach
  rcases Nat.eq_or_lt_of_le hcp with hdrained | hclt
  · intro j hj
    by_contra hne
    obtain ⟨t, ht1, ht2, _⟩ := (hslots j hj).mp hne
    omega
  · exfalso
    have hp1 : 1 ≤ p := by omega
    have hpos1 : 1 ≤ s.queue_pos := by
      rcases Nat.eq_zero_or_pos s.queue_pos with h0 | h0
      · exact absurd (hzero.mp h0) (by omega)
      · exact h0
    have hU32 : U32 = 4294967296 := rfl
    have hlast : wait_drain_last_pos Q s = (s.queue_pos - 1) % Q := by
      unfold wait_drain_last_pos
      have hsplit : s.queue_pos + (U32 - 1) = (s.queue_pos - 1) + U32 := by
        omega
      have hsmall : (s.queue_pos - 1) % U32 = s.queue_pos - 1 :=
        Nat.mod_eq_of_lt (by omega)
      rw [hsplit, Nat.add_mod_right, hsmall]
    have hres : (s.queue_pos - 1) % Q = (p - 1) % Q :=
      pred_mod_congr Q s.queue_pos p hQ hpos1 hp1 hmod
    have hfill : (s.ring ((p - 1) % Q)).state ≠ STATE_EMPTY :=
      (hslots ((p - 1) % Q) (Nat.mod_lt _ hQ)).mpr
        ⟨p - 1, by omega, by omega, rfl⟩
    have hret2 : (s.ring ((p - 1) % Q)).state = STATE_EMPTY := by
      have hb := hret
      unfold wait_drain_returns at hb
      rw [hlast, hres] at hb
      simpa using hb
    exact hfill hret2

/-- C4 witness: a freshly opened channel of length 4, where the wait
condition holds immediately and indeed every slot is `Empty`. -/
theorem c4_wait_drain_all_consumed_witness :
    wait_drain_returns 4 (map_pru_communication 4 0) = true ∧
    ∀ j, j < 4 → ((map_pru_communication 4 0).ring j).state = STATE_EMPTY :=
  ⟨by decide,
   c4_wait_drain_all_consumed 4 (by decide) (by decide) (Reach.init 0)
     (by decide)⟩
